import Mathlib

/-!
Verification development for the FluidMechanics interactive
visualization core (fluids_app.cpp).

The embedding models the particle-advection engine, the release and
reset operations, the clip-plane state machine lock logic, the
stylus-mode clip-plane computation, and the coordinate transforms
between eye space and data (voxel) space.  Machine floats are modelled
as exact rationals, C++ ints as Lean integers, and the timespec clock
as an integer millisecond count.  Fallible library operations (the
matrix inverse of the external math library, which throws on a
singular matrix, and the dereference of an absent velocity dataset)
are modelled with Except and Option.
-/

set_option maxHeartbeats 1000000

/-- Three-component vector over the rationals, modelling the Vector3
float vector of the external math library. -/
@[ext] structure Vec3 where
  x : ℚ
  y : ℚ
  z : ℚ
deriving DecidableEq

instance : Add Vec3 := ⟨fun a b => ⟨a.x + b.x, a.y + b.y, a.z + b.z⟩⟩

instance : Sub Vec3 := ⟨fun a b => ⟨a.x - b.x, a.y - b.y, a.z - b.z⟩⟩

instance : Neg Vec3 := ⟨fun a => ⟨-a.x, -a.y, -a.z⟩⟩

/-- Componentwise product, as Vector3 operator* of the math library
(used by the source for the product with dataSpacing). -/
instance : Mul Vec3 := ⟨fun a b => ⟨a.x * b.x, a.y * b.y, a.z * b.z⟩⟩

/-- Scalar multiple of a Vec3. -/
def Vec3.scale (k : ℚ) (v : Vec3) : Vec3 := ⟨k * v.x, k * v.y, k * v.z⟩

@[simp] theorem Vec3.add_x (a b : Vec3) : (a + b).x = a.x + b.x := rfl

@[simp] theorem Vec3.add_y (a b : Vec3) : (a + b).y = a.y + b.y := rfl

@[simp] theorem Vec3.add_z (a b : Vec3) : (a + b).z = a.z + b.z := rfl

@[simp] theorem Vec3.sub_x (a b : Vec3) : (a - b).x = a.x - b.x := rfl

@[simp] theorem Vec3.sub_y (a b : Vec3) : (a - b).y = a.y - b.y := rfl

@[simp] theorem Vec3.sub_z (a b : Vec3) : (a - b).z = a.z - b.z := rfl

@[simp] theorem Vec3.mul_x (a b : Vec3) : (a * b).x = a.x * b.x := rfl

@[simp] theorem Vec3.mul_y (a b : Vec3) : (a * b).y = a.y * b.y := rfl

@[simp] theorem Vec3.mul_z (a b : Vec3) : (a * b).z = a.z * b.z := rfl

@[simp] theorem Vec3.scale_x (k : ℚ) (v : Vec3) : (Vec3.scale k v).x = k * v.x := rfl

@[simp] theorem Vec3.scale_y (k : ℚ) (v : Vec3) : (Vec3.scale k v).y = k * v.y := rfl

@[simp] theorem Vec3.scale_z (k : ℚ) (v : Vec3) : (Vec3.scale k v).z = k * v.z := rfl

/-- A 3x3 rational matrix (row-major entries), modelling the linear
part of the Matrix4 pose matrices of the source. -/
@[ext] structure Mat3 where
  m00 : ℚ
  m01 : ℚ
  m02 : ℚ
  m10 : ℚ
  m11 : ℚ
  m12 : ℚ
  m20 : ℚ
  m21 : ℚ
  m22 : ℚ
deriving DecidableEq

def Mat3.det (A : Mat3) : ℚ :=
  A.m00 * (A.m11 * A.m22 - A.m12 * A.m21)
    - A.m01 * (A.m10 * A.m22 - A.m12 * A.m20)
    + A.m02 * (A.m10 * A.m21 - A.m11 * A.m20)

def Mat3.mulVec (A : Mat3) (v : Vec3) : Vec3 :=
  ⟨A.m00 * v.x + A.m01 * v.y + A.m02 * v.z,
   A.m10 * v.x + A.m11 * v.y + A.m12 * v.z,
   A.m20 * v.x + A.m21 * v.y + A.m22 * v.z⟩

def Mat3.mul (A B : Mat3) : Mat3 :=
  ⟨A.m00 * B.m00 + A.m01 * B.m10 + A.m02 * B.m20,
   A.m00 * B.m01 + A.m01 * B.m11 + A.m02 * B.m21,
   A.m00 * B.m02 + A.m01 * B.m12 + A.m02 * B.m22,
   A.m10 * B.m00 + A.m11 * B.m10 + A.m12 * B.m20,
   A.m10 * B.m01 + A.m11 * B.m11 + A.m12 * B.m21,
   A.m10 * B.m02 + A.m11 * B.m12 + A.m12 * B.m22,
   A.m20 * B.m00 + A.m21 * B.m10 + A.m22 * B.m20,
   A.m20 * B.m01 + A.m21 * B.m11 + A.m22 * B.m21,
   A.m20 * B.m02 + A.m21 * B.m12 + A.m22 * B.m22⟩

def Mat3.transpose (A : Mat3) : Mat3 :=
  ⟨A.m00, A.m10, A.m20, A.m01, A.m11, A.m21, A.m02, A.m12, A.m22⟩

/-- Adjugate-over-determinant inverse of a 3x3 matrix (the exact
mathematical inverse when the determinant is nonzero; total over the
rationals since division by zero yields zero). -/
def Mat3.inv (A : Mat3) : Mat3 :=
  let d := A.det
  ⟨(A.m11 * A.m22 - A.m12 * A.m21) / d,
   (A.m02 * A.m21 - A.m01 * A.m22) / d,
   (A.m01 * A.m12 - A.m02 * A.m11) / d,
   (A.m12 * A.m20 - A.m10 * A.m22) / d,
   (A.m00 * A.m22 - A.m02 * A.m20) / d,
   (A.m02 * A.m10 - A.m00 * A.m12) / d,
   (A.m10 * A.m21 - A.m11 * A.m20) / d,
   (A.m01 * A.m20 - A.m00 * A.m21) / d,
   (A.m00 * A.m11 - A.m01 * A.m10) / d⟩

def Mat3.id : Mat3 := ⟨1, 0, 0, 0, 1, 0, 0, 0, 1⟩

theorem Mat3.mulVec_inv_cancel (A : Mat3) (h : A.det ≠ 0) (v : Vec3) :
    A.mulVec (A.inv.mulVec v) = v := by
  rcases A with ⟨a, b, c, d, e, f, g, p, q⟩
  rcases v with ⟨x, y, z⟩
  simp only [Mat3.det] at h
  ext <;> simp only [Mat3.mulVec, Mat3.inv, Mat3.det] <;> field_simp <;> ring

/-- An affine transform (linear part plus translation), modelling a
Matrix4 pose matrix of the source applied to positions. -/
@[ext] structure Aff3 where
  linear : Mat3
  trans : Vec3
deriving DecidableEq

/-- Application of an affine transform to a position, as Matrix4
operator* on a Vector3. -/
def Aff3.apply (a : Aff3) (v : Vec3) : Vec3 := a.linear.mulVec v + a.trans

/-- Composition: (a.comp b).apply v = a.apply (b.apply v). -/
def Aff3.comp (a b : Aff3) : Aff3 :=
  ⟨a.linear.mul b.linear, a.linear.mulVec b.trans + a.trans⟩

/-- The inverse affine transform (total over the rationals; the exact
inverse when the linear determinant is nonzero). -/
def Aff3.inv (a : Aff3) : Aff3 :=
  ⟨a.linear.inv, -(a.linear.inv.mulVec a.trans)⟩

def Aff3.id : Aff3 := ⟨Mat3.id, ⟨0, 0, 0⟩⟩

/-- Pure translation, as Matrix4 makeTransform of an offset vector. -/
def Aff3.translate (v : Vec3) : Aff3 := ⟨Mat3.id, v⟩

/-- Truncation of a rational toward zero, the conversion applied when
a C++ float is converted to int (as in the DataCoords constructor). -/
def truncZ (q : ℚ) : ℤ := if q < 0 then -(⌊-q⌋) else ⌊q⌋

/-- A particle of the fixed pool, as struct Particle of the source:
position in voxel-index space, validity flag, the delay and stall
countdowns in milliseconds, and the timestamp of the last update
(modelled as an integer millisecond count). -/
structure Particle where
  pos : Vec3
  valid : Bool
  delayMs : ℤ
  stallMs : ℤ
  lastTime : ℤ
deriving DecidableEq

/-- Clip axis enumeration, as the ClipAxis values of the source. -/
inductive ClipAxis
  | clipNone
  | axisX
  | negAxisX
  | axisY
  | negAxisY
  | axisZ
  | negAxisZ
deriving DecidableEq

/-- The opposite-sign axis, as the neg variable computed in the
lockedClipAxis switch of computeAxisClipPlane. -/
def ClipAxis.negate : ClipAxis → ClipAxis
  | .clipNone => .clipNone
  | .axisX => .negAxisX
  | .negAxisX => .axisX
  | .axisY => .negAxisY
  | .negAxisY => .axisY
  | .axisZ => .negAxisZ
  | .negAxisZ => .axisZ

/-- The unsigned identity of a clip axis: 0 for NONE, 1 for the X
family, 2 for the Y family, 3 for the Z family. -/
def ClipAxis.ident : ClipAxis → ℕ
  | .clipNone => 0
  | .axisX => 1
  | .negAxisX => 1
  | .axisY => 2
  | .negAxisY => 2
  | .axisZ => 3
  | .negAxisZ => 3

/-- The shared slice state written by the clip-plane computations:
the slicing matrix, depth and zoom handed to slice setSlice, and the
shared sliceModelMatrix of the render state. -/
structure SliceShared where
  slicingMatrix : Aff3
  sliceDepth : ℚ
  sliceZoom : ℚ
  sliceModelMatrix : Aff3
deriving DecidableEq

/-- The mutable state of FluidMechanics Impl together with the shared
Settings and State fields that the modelled operations read: dataset
dimensions and spacing, the optional velocity field (a function from
voxel coordinates to the stored vector tuple, or absent), the particle
pool, the seed point, the zoom factor, the pose matrices, the
visibility flags, the clip axes, the projection matrix and the shared
slice state. -/
structure FMState where
  dimX : ℤ
  dimY : ℤ
  dimZ : ℤ
  spacing : Vec3
  velocityData : Option (ℤ → ℤ → ℤ → Vec3)
  particles : Fin 200 → Particle
  seedPoint : Vec3
  zoomFactor : ℚ
  modelMatrix : Aff3
  stylusModelMatrix : Aff3
  tangibleVisible : Bool
  stylusVisible : Bool
  projMatrix : Aff3
  slice : SliceShared

/-- Constant particleSpeed = 0.15f of the source. -/
def particleSpeed : ℚ := 15 / 100

/-- Constant particleReleaseDuration = 700 ms of the source. -/
def particleReleaseDuration : ℤ := 700

/-- Constant particleStallDuration = 1000 ms of the source. -/
def particleStallDuration : ℤ := 1000

/-- The half-extent shift Vector3(dataDim0 / 2, dataDim1 / 2,
dataDim2 / 2) * dataSpacing used by both coordinate transforms; the
component divisions are C++ integer divisions. -/
def halfExtent (s : FMState) : Vec3 :=
  (⟨((s.dimX.tdiv 2 : ℤ) : ℚ), ((s.dimY.tdiv 2 : ℤ) : ℚ), ((s.dimZ.tdiv 2 : ℤ) : ℚ)⟩ : Vec3) * s.spacing

/-- Transform an eye-space position into voxel-index data coordinates,
as posToDataCoords: apply the inverse model matrix, undo the zoom
scale, then shift by the half extent because the data origin is the
voxel corner, not the center. -/
def posToDataCoords (s : FMState) (pos : Vec3) : Vec3 :=
  let r := (Aff3.inv s.modelMatrix).apply pos
  let r := Vec3.scale (1 / s.zoomFactor) r
  r + halfExtent s

/-- Transform voxel-index data coordinates back into an eye-space
position, as dataCoordsToPos: shift by the half extent, apply the zoom
scale, then the model matrix. -/
def dataCoordsToPos (s : FMState) (dataCoords : Vec3) : Vec3 :=
  let r := dataCoords - halfExtent s
  let r := Vec3.scale s.zoomFactor r
  s.modelMatrix.apply r

/-- The sentinel seed point Vector3(-10000, -10000, -10000) set by the
constructor and tested by releaseParticles. -/
def sentinelSeed : Vec3 := ⟨-10000, -10000, -10000⟩

/-- The out-of-bounds test of releaseParticles and of the particle
integration loop: some component negative or at least the
corresponding dataset dimension. -/
def outsideBounds (dx dy dz : ℤ) (vx vy vz : ℚ) : Prop :=
  vx < 0 ∨ vy < 0 ∨ vz < 0 ∨ vx ≥ (dx : ℚ) ∨ vy ≥ (dy : ℚ) ∨ vz ≥ (dz : ℚ)

instance (dx dy dz : ℤ) (vx vy vz : ℚ) : Decidable (outsideBounds dx dy dz vx vy vz) := by
  unfold outsideBounds; infer_instance

/-- The accumulated release delay before particle number n: the source
loop starts delay at 0 and adds particleReleaseDuration divided by the
pool size 200 (a C++ integer division) after each particle. -/
def releaseDelayAux : ℕ → ℤ
  | 0 => 0
  | n + 1 => releaseDelayAux n + particleReleaseDuration.tdiv 200

/-- The releaseParticles operation of the source.  The per-particle
random jitter is supplied as an oracle (one Vector3 per pool index,
each component drawn uniformly from the unit interval by std rand),
and the CLOCK_REALTIME reading as the integer now.  The guard on the
velocity dataset that once preceded the computation is commented out
in the source, so the model does not consult velocityData.  The seed
is rejected when it equals the sentinel or when its data coordinates
fall outside the dataset bounds; otherwise every particle is
reinitialized with the truncated seed coordinates plus jitter and a
staggered delay. -/
def releaseParticles (s : FMState) (jitter : ℕ → Vec3) (now : ℤ) : FMState :=
  if s.seedPoint = sentinelSeed then s
  else
    let dataPos := posToDataCoords s s.seedPoint
    if outsideBounds s.dimX s.dimY s.dimZ dataPos.x dataPos.y dataPos.z then s
    else
      let coords : Vec3 :=
        ⟨((truncZ dataPos.x : ℤ) : ℚ), ((truncZ dataPos.y : ℤ) : ℚ), ((truncZ dataPos.z : ℤ) : ℚ)⟩
      { s with particles := fun i =>
          { pos := coords + jitter i.val
            valid := true
            delayMs := releaseDelayAux i.val
            stallMs := 0
            lastTime := now } }

/-- The resetParticles operation of the source: every particle has its
position set to zero, its stall counter set to zero and its validity
cleared.  The source loop touches no other field. -/
def resetParticles (s : FMState) : FMState :=
  { s with particles := fun i =>
      { s.particles i with pos := ⟨0, 0, 0⟩, stallMs := 0, valid := false } }

/-- The per-millisecond integration loop of integrateParticleMotion
(the while loop over elapsedMs): each iteration truncates the particle
position to voxel coordinates, invalidates the particle and stops when
they fall outside the dataset bounds, samples the velocity tuple at
those coordinates with the X/Y component swap of the source, advances
the position by the scaled velocity when the velocity magnitude
exceeds the threshold 0.001 (compared through the squared length,
which is equivalent for nonnegative lengths), and otherwise starts the
stall countdown and stops. -/
def motionLoop (vel : ℤ → ℤ → ℤ → Vec3) (dx dy dz : ℤ) : ℕ → Particle → Particle
  | 0, p => p
  | n + 1, p =>
    let cx := truncZ p.pos.x
    let cy := truncZ p.pos.y
    let cz := truncZ p.pos.z
    if cx < 0 ∨ cy < 0 ∨ cz < 0 ∨ cx ≥ dx ∨ cy ≥ dy ∨ cz ≥ dz then
      { p with valid := false }
    else
      let v := vel cx cy cz
      let w : Vec3 := ⟨v.y, v.x, v.z⟩
      if w.x ^ 2 + w.y ^ 2 + w.z ^ 2 > (1 / 1000) ^ 2 then
        motionLoop vel dx dy dz n { p with pos := p.pos + Vec3.scale particleSpeed w }
      else
        { p with stallMs := particleStallDuration }

/-- The part of integrateParticleMotion after the delay handling: the
stall branch decrements the stall counter by the elapsed time and
invalidates the particle exactly when the counter becomes strictly
negative; otherwise the velocity dataset is dereferenced (none models
the null-pointer dereference of an absent dataset, which the source
performs unconditionally before the integration loop) and the
integration loop runs once per elapsed millisecond. -/
def tickCore (vel : Option (ℤ → ℤ → ℤ → Vec3)) (dx dy dz : ℤ) (elapsed : ℤ)
    (p : Particle) : Option Particle :=
  if p.stallMs > 0 then
    let sMs := p.stallMs - elapsed
    if sMs < 0 then some { p with stallMs := sMs, valid := false }
    else some { p with stallMs := sMs }
  else
    match vel with
    | none => none
    | some f => some (motionLoop f dx dy dz elapsed.toNat p)

/-- The integrateParticleMotion operation of the source, for one
particle.  Invalid particles and ticks while the tangible is not
visible return the particle unchanged (the source returns before
reading the clock, so lastTime is not advanced while hidden).  The
elapsed time is the difference between now and the stored lastTime,
which is then updated.  A positive delay counter is decremented; when
it crosses below zero the overrun is carried forward as movable
elapsed time, otherwise the tick ends.  The result is none exactly
when the source would dereference an absent velocity dataset. -/
def integrateParticleMotion (visible : Bool) (vel : Option (ℤ → ℤ → ℤ → Vec3))
    (dx dy dz : ℤ) (now : ℤ) (p : Particle) : Option Particle :=
  if p.valid = false then some p
  else if visible = false then some p
  else
    let elapsed := now - p.lastTime
    let p1 := { p with lastTime := now }
    if p1.delayMs > 0 then
      let d := p1.delayMs - elapsed
      if d < 0 then tickCore vel dx dy dz (-d) { p1 with delayMs := d }
      else some { p1 with delayMs := d }
    else tickCore vel dx dy dz elapsed p1

/-- The signed dot product used for the locked-axis sign test of
computeAxisClipPlane: the source dots the normalized image of the
locked signed axis with the view Z axis, which is the corresponding
unsigned-axis dot product with the sign of the locked axis (the
normalization of a negated vector negates the normalized vector). -/
def lockedAxisDot (locked : ClipAxis) (xDot yDot zDot : ℚ) : ℚ :=
  match locked with
  | .clipNone => 0
  | .axisX => xDot
  | .negAxisX => -xDot
  | .axisY => yDot
  | .negAxisY => -yDot
  | .axisZ => zDot
  | .negAxisZ => -zDot

/-- Result of one frame of the axis-mode clip computation: whether a
plane was produced, and the updated candidate and locked clip axes. -/
structure AxisStepResult where
  planeSet : Bool
  clipAxis : ClipAxis
  lockedClipAxis : ClipAxis
deriving DecidableEq

/-- The clip-axis state update of computeAxisClipPlane.  The
normalized axis dot products against the view Z axis (xDot, yDot,
zDot) and the emptiness of the resulting cross-section (computed by
the external Slice object) are frame inputs: both involve a square
root or dataset contents and are not rational functions of the pose.
While the tangible is visible, the candidate axis is recomputed with a
hysteresis margin of 0.1 that is nonzero only once a candidate exists;
an established lock can only flip sign; the computation fails when the
effective axis is NONE; otherwise the lock is set to the effective
axis, or released to NONE when the cross-section is empty.  When the
tangible is not visible both axes reset to NONE. -/
def computeAxisClipPlane (visible : Bool) (xDot yDot zDot : ℚ) (sliceEmpty : Bool)
    (clipAxis lockedClipAxis : ClipAxis) : AxisStepResult :=
  if visible then
    let margin : ℚ := if clipAxis ≠ ClipAxis.clipNone then 1 / 10 else 0
    let ca1 :=
      if |xDot| > |yDot| + margin ∧ |xDot| > |zDot| + margin then
        (if xDot < 0 then ClipAxis.axisX else ClipAxis.negAxisX)
      else if |yDot| > |xDot| + margin ∧ |yDot| > |zDot| + margin then
        (if yDot < 0 then ClipAxis.axisY else ClipAxis.negAxisY)
      else if |zDot| > |xDot| + margin ∧ |zDot| > |yDot| + margin then
        (if zDot < 0 then ClipAxis.axisZ else ClipAxis.negAxisZ)
      else clipAxis
    let locked1 :=
      if lockedClipAxis ≠ ClipAxis.clipNone ∧ lockedAxisDot lockedClipAxis xDot yDot zDot > 0 then
        lockedClipAxis.negate
      else lockedClipAxis
    let ca := if locked1 ≠ ClipAxis.clipNone then locked1 else ca1
    if ca = ClipAxis.clipNone then ⟨false, ca1, locked1⟩
    else ⟨true, ca1, if sliceEmpty then ClipAxis.clipNone else ca⟩
  else
    ⟨false, ClipAxis.clipNone, ClipAxis.clipNone⟩

/-- Modelled from the spec: the Matrix4 inverse of the external math
library throws on a non-invertible matrix (the spec requires the
stylus-mode computation to tolerate a degenerate stylus pose by
catching this failure).  An affine matrix is singular exactly when its
linear part has determinant zero. -/
def affInvE (a : Aff3) : Except Unit Aff3 :=
  if a.linear.det = 0 then Except.error () else Except.ok a.inv

/-- Exception-aware variant of posToDataCoords used inside the stylus
try block, where the model matrix inverse may throw. -/
def posToDataCoordsE (s : FMState) (pos : Vec3) : Except Unit Vec3 :=
  match affInvE s.modelMatrix with
  | Except.error e => Except.error e
  | Except.ok mInv => Except.ok (Vec3.scale (1 / s.zoomFactor) (mInv.apply pos) + halfExtent s)

/-- Projection of a vector onto the plane with normal unitZ, as the
projectOnPlane call of the stylus computation: the Z component is
removed. -/
def projectOnPlaneZ (v : Vec3) : Vec3 := ⟨v.x, v.y, 0⟩

/-- The half-size constant of the stylus computation: 0.5 times (60
plus the largest physical extent of the dataset). -/
def stylusSize (s : FMState) : ℚ :=
  (1 / 2) * (60 + max (s.spacing.x * s.dimX) (max (s.spacing.y * s.dimY) (s.spacing.z * s.dimZ)))

/-- The body of the try block of computeStylusClipPlane, returning the
new shared slice state together with the plane point and normal, or an
error when one of the matrix inversions throws.  The order of
operations follows the source: the stylus matrix is inverted first, so
a singular stylus matrix fails before any state is produced.  The
projection matrix (whose first diagonal entry the source overwrites
with the negated second to force unit aspect) enters the slicing
matrix; it is carried as an affine stand-in since its value feeds no
claim. -/
def stylusBody (s : FMState) : Except Unit (SliceShared × Vec3 × Vec3) :=
  match affInvE s.stylusModelMatrix with
  | Except.error e => Except.error e
  | Except.ok sInv =>
    let dataPosInStylusSpace := (sInv.comp s.modelMatrix).apply ⟨0, 0, 0⟩
    let offset := projectOnPlaneZ dataPosInStylusSpace
    let planeMatrix := s.stylusModelMatrix.comp (Aff3.translate offset)
    match affInvE planeMatrix with
    | Except.error e => Except.error e
    | Except.ok pInv =>
      let proj2 : Aff3 :=
        { s.projMatrix with linear := { s.projMatrix.linear with m00 := -s.projMatrix.linear.m11 } }
      match affInvE (proj2.comp (pInv.comp s.modelMatrix)) with
      | Except.error e => Except.error e
      | Except.ok cInv =>
        let pt2 := planeMatrix.apply ⟨0, 0, 0⟩
        match posToDataCoordsE s pt2 with
        | Except.error e => Except.error e
        | Except.ok dataCoords =>
          let size := stylusSize s
          let scaleAff : Aff3 :=
            ⟨⟨s.zoomFactor * size, 0, 0, 0, s.zoomFactor * size, 0, 0, 0, 0⟩, ⟨0, 0, 0⟩⟩
          Except.ok
            ({ slicingMatrix := ⟨cInv.linear, dataCoords⟩
               sliceDepth := -s.projMatrix.linear.m11 * size * s.zoomFactor
               sliceZoom := s.zoomFactor
               sliceModelMatrix := planeMatrix.comp scaleAff },
             pt2,
             (sInv.linear.transpose).mulVec ⟨0, 0, 1⟩)

/-- The computeStylusClipPlane operation: fails (no plane, shared
slice state untouched) when the stylus is not visible, or when the try
block throws; on success the shared slice state is replaced and the
plane point and normal are returned. -/
def computeStylusClipPlane (s : FMState) : Option (Vec3 × Vec3) × SliceShared :=
  if s.stylusVisible = false then (none, s.slice)
  else
    match stylusBody s with
    | Except.error _ => (none, s.slice)
    | Except.ok (newSlice, pt, n) => (some (pt, n), newSlice)

@[simp] theorem Vec3.neg_x (a : Vec3) : (-a).x = -a.x := rfl

@[simp] theorem Vec3.neg_y (a : Vec3) : (-a).y = -a.y := rfl

@[simp] theorem Vec3.neg_z (a : Vec3) : (-a).z = -a.z := rfl

theorem Vec3.add_sub_cancel_right (u v : Vec3) : u + v - v = u := by
  ext <;> simp

theorem Vec3.scale_scale (a b : ℚ) (v : Vec3) :
    Vec3.scale a (Vec3.scale b v) = Vec3.scale (a * b) v := by
  ext <;> simp <;> ring

theorem Vec3.scale_one (v : Vec3) : Vec3.scale 1 v = v := by
  ext <;> simp

theorem Mat3.mulVec_add (A : Mat3) (u v : Vec3) :
    A.mulVec (u + v) = A.mulVec u + A.mulVec v := by
  ext <;> simp [Mat3.mulVec] <;> ring

theorem Mat3.mulVec_neg (A : Mat3) (v : Vec3) : A.mulVec (-v) = -(A.mulVec v) := by
  ext <;> simp [Mat3.mulVec] <;> ring

theorem Aff3.apply_inv_cancel (a : Aff3) (h : a.linear.det ≠ 0) (v : Vec3) :
    a.apply ((Aff3.inv a).apply v) = v := by
  simp only [Aff3.apply, Aff3.inv, Mat3.mulVec_add, Mat3.mulVec_neg,
    Mat3.mulVec_inv_cancel a.linear h]
  ext <;> simp

/-- Zero velocity field: every voxel stores the zero vector. -/
def velZero : ℤ → ℤ → ℤ → Vec3 := fun _ _ _ => ⟨0, 0, 0⟩

/-- Zero jitter oracle, modelling a run where every random draw is
zero. -/
def jitterZero : ℕ → Vec3 := fun _ => ⟨0, 0, 0⟩

/-- An invalidated particle, as left by the constructor. -/
def particleInvalid : Particle := ⟨⟨0, 0, 0⟩, false, 0, 0, 0⟩

/-- The initial shared slice state placeholder of the fixtures. -/
def sliceSharedInit : SliceShared := ⟨Aff3.id, 0, 0, Aff3.id⟩

/-- A basic concrete state: a 4x4x4 dataset with unit spacing, no
velocity dataset, an all-invalid pool, identity pose matrices, unit
zoom, both objects visible, and a seed point whose data coordinates
are (1, 1, 1). -/
def baseState : FMState :=
  { dimX := 4
    dimY := 4
    dimZ := 4
    spacing := ⟨1, 1, 1⟩
    velocityData := none
    particles := fun _ => particleInvalid
    seedPoint := ⟨-1, -1, -1⟩
    zoomFactor := 1
    modelMatrix := Aff3.id
    stylusModelMatrix := Aff3.id
    tangibleVisible := true
    stylusVisible := true
    projMatrix := Aff3.id
    slice := sliceSharedInit }

/-- C9: for every position p, every model matrix with nonzero
determinant and every nonzero zoom factor, dataCoordsToPos inverts
posToDataCoords exactly.  The claim allows a 1e-4 relative
floating-point tolerance; in the exact rational model the round trip
is exact, which implies the toleranced statement. -/
theorem roundTrip_dataCoords_pos (s : FMState) (p : Vec3)
    (hdet : s.modelMatrix.linear.det ≠ 0) (hz : s.zoomFactor ≠ 0) :
    dataCoordsToPos s (posToDataCoords s p) = p := by
  simp only [dataCoordsToPos, posToDataCoords]
  rw [Vec3.add_sub_cancel_right, Vec3.scale_scale]
  rw [show s.zoomFactor * (1 / s.zoomFactor) = 1 by field_simp]
  rw [Vec3.scale_one]
  exact Aff3.apply_inv_cancel _ hdet _

/-- Witness for C9 at the concrete base state and the position
(1, 2, 3). -/
theorem roundTrip_dataCoords_pos_witness :
    baseState.modelMatrix.linear.det ≠ 0 ∧ baseState.zoomFactor ≠ 0 ∧
      dataCoordsToPos baseState (posToDataCoords baseState ⟨1, 2, 3⟩) = ⟨1, 2, 3⟩ :=
  ⟨by norm_num [baseState, Aff3.id, Mat3.id, Mat3.det],
    by norm_num [baseState],
    roundTrip_dataCoords_pos baseState ⟨1, 2, 3⟩
      (by norm_num [baseState, Aff3.id, Mat3.id, Mat3.det]) (by norm_num [baseState])⟩

/-- A particle with a pending release delay (delayMs = 5). -/
def particlePending : Particle := ⟨⟨1, 1, 1⟩, true, 5, 0, 0⟩

/-- A valid particle at voxel position (1, 1, 1) with no pending
delay or stall. -/
def particleLive : Particle := ⟨⟨1, 1, 1⟩, true, 0, 0, 0⟩

/-- The base state with every pool slot holding a particle that still
has a pending release delay. -/
def statePending : FMState := { baseState with particles := fun _ => particlePending }

/-- The base state with a far out-of-bounds seed point and a pool of
valid particles from an earlier release. -/
def stateFarSeed : FMState :=
  { baseState with seedPoint := ⟨100, 100, 100⟩, particles := fun _ => particleLive }

theorem tdiv_four_two : Int.tdiv 4 2 = 2 := by decide

theorem tdiv_release_step : particleReleaseDuration.tdiv 200 = 3 := by decide

/-- C10 counterexample: resetParticles does not zero the release-delay
counter.  In a state whose particle 0 has delayMs = 5 the reset leaves
delayMs at 5, refuting the claim that all transient fields including
delayRemainingMs are zeroed. -/
theorem resetParticles_keeps_delay :
    ((resetParticles statePending).particles 0).delayMs = 5
    ∧ ¬ ((resetParticles statePending).particles 0).delayMs = 0 := by
  constructor <;> norm_num [resetParticles, statePending, particlePending]

/-- C10 (amended): after resetParticles every particle is invalid with
position and stall counter zeroed, while the delay counter and the
last-update timestamp keep their previous values; no seed point is
required. -/
theorem resetParticles_spec (s : FMState) (i : Fin 200) :
    ((resetParticles s).particles i).valid = false
    ∧ ((resetParticles s).particles i).pos = ⟨0, 0, 0⟩
    ∧ ((resetParticles s).particles i).stallMs = 0
    ∧ ((resetParticles s).particles i).delayMs = (s.particles i).delayMs
    ∧ ((resetParticles s).particles i).lastTime = (s.particles i).lastTime :=
  ⟨rfl, rfl, rfl, rfl, rfl⟩

/-- C1: with no velocity dataset loaded, releaseParticles still marks
the whole pool valid (its velocity-data guard is commented out in the
source), and the next per-particle tick dereferences the absent
velocity dataset (the none result models the null-pointer dereference
of velocityData before the integration loop), so neither operation is
the safe no-op the claim describes. -/
theorem release_and_tick_unguarded_without_velocity :
    baseState.velocityData = none
    ∧ ((releaseParticles baseState jitterZero 0).particles 0).valid = true
    ∧ integrateParticleMotion baseState.tangibleVisible baseState.velocityData
        baseState.dimX baseState.dimY baseState.dimZ 1
        ((releaseParticles baseState jitterZero 0).particles 0) = none := by
  refine ⟨rfl, ?_, ?_⟩ <;>
    norm_num [releaseParticles, baseState, sentinelSeed, posToDataCoords, halfExtent,
      Aff3.inv, Aff3.apply, Mat3.inv, Mat3.mulVec, Mat3.det, Aff3.id, Mat3.id,
      outsideBounds, truncZ, jitterZero, releaseDelayAux, integrateParticleMotion,
      tickCore, particleInvalid, tdiv_four_two]

/-- C5 counterexample: with an out-of-bounds seed, releaseParticles is
rejected but the pool keeps whatever validity it had, so after a
rejected release following a successful one a particle is still valid,
refuting the claim that every particle then has valid = false. -/
theorem release_rejected_keeps_valid_particle :
    outsideBounds stateFarSeed.dimX stateFarSeed.dimY stateFarSeed.dimZ
      (posToDataCoords stateFarSeed stateFarSeed.seedPoint).x
      (posToDataCoords stateFarSeed stateFarSeed.seedPoint).y
      (posToDataCoords stateFarSeed stateFarSeed.seedPoint).z
    ∧ ((releaseParticles stateFarSeed jitterZero 0).particles 0).valid = true := by
  constructor <;>
    norm_num [releaseParticles, stateFarSeed, baseState, sentinelSeed, posToDataCoords,
      halfExtent, Aff3.inv, Aff3.apply, Mat3.inv, Mat3.mulVec, Mat3.det, Aff3.id,
      Mat3.id, outsideBounds, particleLive, tdiv_four_two]

/-- C5 (amended): a release whose seed has data coordinates outside
the dataset bounds is a rejected no-op: the whole state, in particular
the particle pool, is left exactly as it was, so every particle that
was invalid remains invalid (and from the initial all-invalid pool the
pool stays all-invalid). -/
theorem release_out_of_bounds_noop (s : FMState) (jitter : ℕ → Vec3) (now : ℤ)
    (h : outsideBounds s.dimX s.dimY s.dimZ
      (posToDataCoords s s.seedPoint).x
      (posToDataCoords s s.seedPoint).y
      (posToDataCoords s s.seedPoint).z) :
    releaseParticles s jitter now = s := by
  unfold releaseParticles
  split
  · rfl
  · rw [if_pos h]

/-- Witness for C5 at the concrete far-seed state. -/
theorem release_out_of_bounds_noop_witness :
    outsideBounds stateFarSeed.dimX stateFarSeed.dimY stateFarSeed.dimZ
      (posToDataCoords stateFarSeed stateFarSeed.seedPoint).x
      (posToDataCoords stateFarSeed stateFarSeed.seedPoint).y
      (posToDataCoords stateFarSeed stateFarSeed.seedPoint).z
    ∧ releaseParticles stateFarSeed jitterZero 0 = stateFarSeed := by
  have h : outsideBounds stateFarSeed.dimX stateFarSeed.dimY stateFarSeed.dimZ
      (posToDataCoords stateFarSeed stateFarSeed.seedPoint).x
      (posToDataCoords stateFarSeed stateFarSeed.seedPoint).y
      (posToDataCoords stateFarSeed stateFarSeed.seedPoint).z := by
    norm_num [stateFarSeed, baseState, posToDataCoords, halfExtent, Aff3.inv, Aff3.apply,
      Mat3.inv, Mat3.mulVec, Mat3.det, Aff3.id, Mat3.id, outsideBounds, tdiv_four_two]
  exact ⟨h, release_out_of_bounds_noop stateFarSeed jitterZero 0 h⟩

theorem releaseDelayAux_eq (n : ℕ) :
    releaseDelayAux n = n * particleReleaseDuration.tdiv 200 := by
  induction n with
  | zero => simp [releaseDelayAux]
  | succ k ih =>
    simp only [releaseDelayAux, ih]
    push_cast
    ring

/-- C6 counterexample: the release delays are produced by accumulating
the integer quotient of the release duration by the pool size, so
particle 2 receives 6 ms, while the formula of the claim, i times D
over N, gives 7 ms at i = 2 (D = 700, N = 200), already under the
C++ integer evaluation of 2 times 700 over 200. -/
theorem release_delay_not_iDN :
    ((releaseParticles baseState jitterZero 0).particles 2).delayMs = 6
    ∧ (2 * particleReleaseDuration).tdiv 200 = 7 := by
  refine ⟨?_, by decide⟩
  norm_num [releaseParticles, baseState, sentinelSeed, posToDataCoords, halfExtent,
    Aff3.inv, Aff3.apply, Mat3.inv, Mat3.mulVec, Mat3.det, Aff3.id, Mat3.id,
    outsideBounds, truncZ, jitterZero, releaseDelayAux, tdiv_four_two, tdiv_release_step]

/-- C6 (amended): a successful release assigns particle i the delay
i times the integer quotient of the release duration D by the pool
size N (3 ms for D = 700, N = 200, so the spacing is the truncated
D over N, not the exact ratio); the delays start at 0, are evenly
spaced by that quotient and are monotonically increasing. -/
theorem release_delays_staggered (s : FMState) (jitter : ℕ → Vec3) (now : ℤ)
    (i : Fin 200)
    (hs : ¬ s.seedPoint = sentinelSeed)
    (hin : ¬ outsideBounds s.dimX s.dimY s.dimZ
      (posToDataCoords s s.seedPoint).x
      (posToDataCoords s s.seedPoint).y
      (posToDataCoords s s.seedPoint).z) :
    ((releaseParticles s jitter now).particles i).delayMs
      = i.val * particleReleaseDuration.tdiv 200 := by
  unfold releaseParticles
  rw [if_neg hs, if_neg hin]
  exact releaseDelayAux_eq i.val

/-- Witness for C6 at the base state and pool index 5. -/
theorem release_delays_staggered_witness :
    ¬ baseState.seedPoint = sentinelSeed
    ∧ ¬ outsideBounds baseState.dimX baseState.dimY baseState.dimZ
        (posToDataCoords baseState baseState.seedPoint).x
        (posToDataCoords baseState baseState.seedPoint).y
        (posToDataCoords baseState baseState.seedPoint).z
    ∧ ((releaseParticles baseState jitterZero 0).particles (⟨5, by norm_num⟩ : Fin 200)).delayMs
        = 5 * particleReleaseDuration.tdiv 200 := by
  have hs : ¬ baseState.seedPoint = sentinelSeed := by
    norm_num [baseState, sentinelSeed]
  have hin : ¬ outsideBounds baseState.dimX baseState.dimY baseState.dimZ
      (posToDataCoords baseState baseState.seedPoint).x
      (posToDataCoords baseState baseState.seedPoint).y
      (posToDataCoords baseState baseState.seedPoint).z := by
    norm_num [baseState, posToDataCoords, halfExtent, Aff3.inv, Aff3.apply,
      Mat3.inv, Mat3.mulVec, Mat3.det, Aff3.id, Mat3.id, outsideBounds, tdiv_four_two]
  exact ⟨hs, hin,
    release_delays_staggered baseState jitterZero 0 (⟨5, by norm_num⟩ : Fin 200) hs hin⟩

/-- A valid particle whose stall countdown was just set to the full
configured stall duration. -/
def particleStalled : Particle := ⟨⟨1, 1, 1⟩, true, 0, 1000, 0⟩

/-- A valid particle with 500 ms of stall countdown remaining. -/
def particleStallShort : Particle := ⟨⟨1, 1, 1⟩, true, 0, 500, 0⟩

/-- A valid particle whose x position is negative but above -1. -/
def particleNegHalf : Particle := ⟨⟨-1 / 2, 1, 1⟩, true, 0, 0, 0⟩

/-- C2 counterexample: a stalled particle whose countdown reaches
exactly zero is not invalidated (the source only invalidates on a
strictly negative counter) and on the next tick it leaves the stall
state and re-enters motion integration, which in a still-zero velocity
field restarts the full stall countdown: the particle neither becomes
invalid after exactly the configured duration nor stays stalled. -/
theorem stall_exact_boundary_resumes :
    integrateParticleMotion true (some velZero) 4 4 4 1000 particleStalled
      = some ⟨⟨1, 1, 1⟩, true, 0, 0, 1000⟩
    ∧ integrateParticleMotion true (some velZero) 4 4 4 1001 ⟨⟨1, 1, 1⟩, true, 0, 0, 1000⟩
      = some ⟨⟨1, 1, 1⟩, true, 0, 1000, 1001⟩ := by
  constructor
  · norm_num [integrateParticleMotion, tickCore, particleStalled]
  · norm_num [integrateParticleMotion, tickCore, motionLoop, velZero, truncZ,
      particleStallDuration]

/-- C2 (amended): while the stall countdown is positive, a tick
decrements it by the elapsed time without moving the particle, and the
particle is marked invalid exactly when the decremented counter is
strictly negative, that is, only strictly after the configured stall
duration has fully elapsed and never earlier; a countdown landing
exactly on zero leaves the particle valid (and motion integration runs
again on the next tick). -/
theorem stall_tick_spec (vel : Option (ℤ → ℤ → ℤ → Vec3)) (dx dy dz now : ℤ)
    (p : Particle) (hv : p.valid = true) (hd : p.delayMs ≤ 0) (hs : 0 < p.stallMs) :
    integrateParticleMotion true vel dx dy dz now p
      = some (if p.stallMs - (now - p.lastTime) < 0
          then { p with lastTime := now, stallMs := p.stallMs - (now - p.lastTime), valid := false }
          else { p with lastTime := now, stallMs := p.stallMs - (now - p.lastTime) }) := by
  have hd2 : ¬ p.delayMs > 0 := not_lt.mpr hd
  simp [integrateParticleMotion, tickCore, hv, hd2, hs]
  split <;> rfl

/-- A valid particle with 300 ms of stall countdown remaining. -/
def particleStall300 : Particle := ⟨⟨1, 1, 1⟩, true, 0, 300, 0⟩

/-- Witness for C2: a particle with 300 ms of stall left, ticked after
500 ms, ends invalid with the counter at -200. -/
theorem stall_tick_spec_witness :
    particleStall300.valid = true
    ∧ particleStall300.delayMs ≤ 0
    ∧ 0 < particleStall300.stallMs
    ∧ integrateParticleMotion true (some velZero) 4 4 4 500 particleStall300
      = some (if particleStall300.stallMs - (500 - particleStall300.lastTime) < 0
          then { particleStall300 with
                   lastTime := 500,
                   stallMs := particleStall300.stallMs - (500 - particleStall300.lastTime),
                   valid := false }
          else { particleStall300 with
                   lastTime := 500,
                   stallMs := particleStall300.stallMs - (500 - particleStall300.lastTime) }) :=
  ⟨rfl, by norm_num [particleStall300], by norm_num [particleStall300],
    stall_tick_spec (some velZero) 4 4 4 500 particleStall300 rfl
      (by norm_num [particleStall300]) (by norm_num [particleStall300])⟩

/-- C3 counterexample: the hidden tick itself is a no-op (first
conjunct, as the claim states), but the hidden interval is still
counted: a particle hidden with 500 ms of stall remaining is
invalidated by the very first visible tick at the same instant 1000,
because lastTime was never advanced while hidden, so the elapsed time
of that tick spans the whole hidden interval instead of the claimed
paused continuation. -/
theorem hidden_interval_still_counted :
    integrateParticleMotion false (some velZero) 4 4 4 1000 particleStallShort
      = some particleStallShort
    ∧ integrateParticleMotion true (some velZero) 4 4 4 1000 particleStallShort
      = some ⟨⟨1, 1, 1⟩, false, 0, -500, 1000⟩ := by
  constructor <;>
    norm_num [integrateParticleMotion, tickCore, particleStallShort, velZero]

/-- C3 (amended): while the tangible is not visible a tick is a
complete no-op, leaving the particle, including its lastTime stamp,
unchanged; consequently the hidden interval is not excluded from the
elapsed time: a hidden tick followed by a visible tick behaves exactly
like the visible tick alone, whose elapsed time spans the whole hidden
interval, so motion is fast-forwarded through it rather than paused
out of the accounting. -/
theorem hidden_tick_noop_time_not_excluded (vel : Option (ℤ → ℤ → ℤ → Vec3))
    (dx dy dz now1 now2 : ℤ) (p : Particle) :
    integrateParticleMotion false vel dx dy dz now1 p = some p
    ∧ (integrateParticleMotion false vel dx dy dz now1 p).bind
        (integrateParticleMotion true vel dx dy dz now2)
      = integrateParticleMotion true vel dx dy dz now2 p := by
  have h1 : integrateParticleMotion false vel dx dy dz now1 p = some p := by
    simp [integrateParticleMotion]
  exact ⟨h1, by rw [h1]; rfl⟩

/-- C4 counterexample: a particle at x = -1/2 has a position outside
the data bounds on the x axis, yet the tick does not invalidate it:
the truncation toward zero of the DataCoords conversion maps -1/2 to
voxel 0, the bounds test passes, and the particle merely stalls in the
zero velocity field, remaining valid. -/
theorem fractional_negative_position_survives :
    particleNegHalf.pos.x < 0
    ∧ integrateParticleMotion true (some velZero) 2 2 2 1 particleNegHalf
      = some ⟨⟨-1 / 2, 1, 1⟩, true, 0, 1000, 1⟩ := by
  constructor
  · norm_num [particleNegHalf]
  · norm_num [integrateParticleMotion, tickCore, motionLoop, particleNegHalf,
      velZero, truncZ, particleStallDuration]

/-- C4 (amended): during tick integration a particle is invalidated,
and its integration stops for that tick, exactly when its position
truncated toward zero (the DataCoords int conversion) falls outside
the bounds on some axis: a negative truncated component or one at
least the corresponding dimension.  Positions strictly between -1 and
0 truncate to voxel 0 and are therefore treated as in bounds. -/
theorem tick_invalidates_on_truncated_out_of_bounds (f : ℤ → ℤ → ℤ → Vec3)
    (dx dy dz now : ℤ) (p : Particle)
    (hv : p.valid = true) (hd : p.delayMs ≤ 0) (hs : p.stallMs ≤ 0)
    (he : 1 ≤ now - p.lastTime)
    (hout : truncZ p.pos.x < 0 ∨ truncZ p.pos.y < 0 ∨ truncZ p.pos.z < 0
        ∨ truncZ p.pos.x ≥ dx ∨ truncZ p.pos.y ≥ dy ∨ truncZ p.pos.z ≥ dz) :
    integrateParticleMotion true (some f) dx dy dz now p
      = some { p with lastTime := now, valid := false } := by
  have hd2 : ¬ p.delayMs > 0 := not_lt.mpr hd
  have hs2 : ¬ p.stallMs > 0 := not_lt.mpr hs
  obtain ⟨n, hn⟩ : ∃ n, (now - p.lastTime).toNat = n + 1 :=
    ⟨(now - p.lastTime).toNat - 1, by omega⟩
  simp only [integrateParticleMotion, tickCore, hn]
  rw [if_neg (by simp [hv]), if_neg (by simp), if_neg (by simpa using hd2),
    if_neg (by simpa using hs2)]
  simp only [motionLoop]
  rw [if_pos (by simpa using hout)]

/-- A valid particle at x = -3/2, truncating to voxel -1. -/
def particleFarNeg : Particle := ⟨⟨-3 / 2, 0, 0⟩, true, 0, 0, 0⟩

/-- Witness for C4: the particle at x = -3/2 is invalidated by a tick
over a 2x2x2 dataset. -/
theorem tick_invalidates_on_truncated_out_of_bounds_witness :
    particleFarNeg.valid = true
    ∧ particleFarNeg.delayMs ≤ 0
    ∧ particleFarNeg.stallMs ≤ 0
    ∧ 1 ≤ 1 - particleFarNeg.lastTime
    ∧ truncZ particleFarNeg.pos.x < 0
    ∧ integrateParticleMotion true (some velZero) 2 2 2 1 particleFarNeg
      = some { particleFarNeg with lastTime := 1, valid := false } :=
  ⟨rfl, by norm_num [particleFarNeg], by norm_num [particleFarNeg],
    by norm_num [particleFarNeg], by norm_num [particleFarNeg, truncZ],
    tick_invalidates_on_truncated_out_of_bounds velZero 2 2 2 1 particleFarNeg
      rfl (by norm_num [particleFarNeg]) (by norm_num [particleFarNeg])
      (by norm_num [particleFarNeg])
      (Or.inl (by norm_num [particleFarNeg, truncZ]))⟩

/-- C7: one frame of the axis-mode computation never moves an
established lock to a perpendicular axis: whenever the locked clip
axis is not NONE before the frame, afterwards it is either NONE, or a
signed axis with the same unsigned identity (the same axis or its
opposite sign). -/
theorem lockedClipAxis_no_perpendicular_jump (visible : Bool) (xDot yDot zDot : ℚ)
    (sliceEmpty : Bool) (ca la : ClipAxis) (h : ¬ la = ClipAxis.clipNone) :
    (computeAxisClipPlane visible xDot yDot zDot sliceEmpty ca la).lockedClipAxis
        = ClipAxis.clipNone
    ∨ ((computeAxisClipPlane visible xDot yDot zDot sliceEmpty ca la).lockedClipAxis).ident
        = la.ident := by
  have hni : ∀ b : ClipAxis, b ≠ ClipAxis.clipNone →
      b.negate ≠ ClipAxis.clipNone ∧ b.negate.ident = b.ident := by
    intro b hb
    cases b <;> simp [ClipAxis.negate, ClipAxis.ident] at hb ⊢
  cases visible with
  | false => exact Or.inl rfl
  | true =>
    simp only [computeAxisClipPlane]
    by_cases hf : la ≠ ClipAxis.clipNone ∧ lockedAxisDot la xDot yDot zDot > 0
    · rw [if_pos hf]
      obtain ⟨hne, hid⟩ := hni la h
      rw [if_pos hne, if_neg hne]
      cases sliceEmpty with
      | false => exact Or.inr hid
      | true => exact Or.inl rfl
    · rw [if_neg hf]
      rw [if_pos h, if_neg h]
      cases sliceEmpty with
      | false => exact Or.inr rfl
      | true => exact Or.inl rfl

/-- Witness for C7 at a concrete frame with an established X lock. -/
theorem lockedClipAxis_no_perpendicular_jump_witness :
    ¬ ClipAxis.axisX = ClipAxis.clipNone
    ∧ ((computeAxisClipPlane true 1 0 0 false ClipAxis.clipNone ClipAxis.axisX).lockedClipAxis
          = ClipAxis.clipNone
       ∨ ((computeAxisClipPlane true 1 0 0 false ClipAxis.clipNone
            ClipAxis.axisX).lockedClipAxis).ident = ClipAxis.axisX.ident) :=
  ⟨by decide,
    lockedClipAxis_no_perpendicular_jump true 1 0 0 false ClipAxis.clipNone
      ClipAxis.axisX (by decide)⟩

/-- C8: with a singular stylus model matrix the stylus-mode clip-plane
computation reports no plane and the shared slice state keeps its
previous-frame value: the failing matrix inversion is the first
operation of the try block, before any slice write, and the catch
absorbs it; nothing escapes to the caller. -/
theorem stylus_singular_no_plane (s : FMState)
    (h : s.stylusModelMatrix.linear.det = 0) :
    (computeStylusClipPlane s).fst = none ∧ (computeStylusClipPlane s).snd = s.slice := by
  unfold computeStylusClipPlane
  split
  · exact ⟨rfl, rfl⟩
  · constructor <;> simp only [stylusBody, affInvE, if_pos h]

/-- The base state with an all-zero (hence singular) stylus matrix. -/
def stateSingularStylus : FMState :=
  { baseState with stylusModelMatrix := ⟨⟨0, 0, 0, 0, 0, 0, 0, 0, 0⟩, ⟨0, 0, 0⟩⟩ }

/-- Witness for C8 at the concrete singular-stylus state. -/
theorem stylus_singular_no_plane_witness :
    stateSingularStylus.stylusModelMatrix.linear.det = 0
    ∧ (computeStylusClipPlane stateSingularStylus).fst = none
    ∧ (computeStylusClipPlane stateSingularStylus).snd = stateSingularStylus.slice := by
  have h : stateSingularStylus.stylusModelMatrix.linear.det = 0 := by
    norm_num [stateSingularStylus, baseState, Mat3.det]
  exact ⟨h, (stylus_singular_no_plane stateSingularStylus h).1,
    (stylus_singular_no_plane stateSingularStylus h).2⟩
